import Mathlib

/-!
Verification development for the client-side WebSocket handshake core
(`lib/client.c` of the libwebsockets mirror).

Pure shallow embedding: bytes are `Nat` (values < 256), machine words are
`Nat` reduced `% 2^32`, C strings are Lean `String`/`List Char`, heap and
callback effects of the handshake interpreter are recorded as an explicit
trace of actions.

Components of the repository that `lib/client.c` calls but whose code is
not part of the file (SHA-1, base64 codec, the byte-fed header parser,
`libwebsocket_close_and_free_session`, `libwebsocket_ensure_user_space`,
the random source) are modelled from the specification; each such
definition is marked `Modelled from the spec:` in its doc comment.
-/

/- ## Bytes and strings -/

/-- Byte sequence of a Lean string (ASCII code points, as the C code sees
`char` data). -/
def strBytes (s : String) : List Nat := s.data.map Char.toNat

/-- In-place `tolower` over a string, mirroring `strtolower` in `lib/client.c`
(ASCII lowering applied to every character). -/
def lowerStr (s : String) : String := String.mk (s.data.map Char.toLower)

/-- `strncmp(s, lit, strlen(lit)) == 0`: the literal is a prefix of `s`
(a shorter `s` fails at its terminating NUL, as in C). -/
def strncmpOk (lit s : String) : Bool := lit.data.isPrefixOf s.data

/-- Comma-separated tokens of a string, exactly as the claims phrase
"appears as a comma-separated token" (pure splitting, no trimming). -/
def commaSplit : List Char → List (List Char)
  | [] => [[]]
  | c :: cs =>
    if c = ',' then [] :: commaSplit cs
    else
      match commaSplit cs with
      | [] => [[c]]
      | t :: rest => (c :: t) :: rest

/-- Comma-separated tokens of a string. -/
def commaTokens (s : String) : List String := (commaSplit s.data).map String.mk

/- ## Base64 encoder -/

/-- Modelled from the spec: the repository's `lws_b64_encode_string`
(`lib/base64-decode.c`, not under `src/`), producing canonical padded
base64 as required for the 16-byte key and the 20-byte SHA-1 digest. -/
def b64Alphabet : List Char :=
  "ABCDEFGHIJKLMNOPQRSTUVWXYZabcdefghijklmnopqrstuvwxyz0123456789+/".data

/-- One base64 digit. -/
def b64Digit (n : Nat) : Char := b64Alphabet.getD n 'A'

/-- Modelled from the spec: canonical base64 encoding with `=` padding. -/
def lwsB64Encode : List Nat → String
  | [] => ""
  | [a] =>
      String.mk [b64Digit (a / 4), b64Digit (a % 4 * 16), '=', '=']
  | [a, b] =>
      String.mk [b64Digit (a / 4), b64Digit (a % 4 * 16 + b / 16),
                 b64Digit (b % 16 * 4), '=']
  | a :: b :: c :: rest =>
      String.mk [b64Digit (a / 4), b64Digit (a % 4 * 16 + b / 16),
                 b64Digit (b % 16 * 4 + c / 64), b64Digit (c % 64)]
        ++ lwsB64Encode rest

/- ## SHA-1 -/

/-- 32-bit truncation. -/
def w32 (x : Nat) : Nat := x % 4294967296

/-- 32-bit left rotation. -/
def rotl32 (n x : Nat) : Nat := w32 (x * 2 ^ n) + x / 2 ^ (32 - n)

/-- Modelled from the spec: the SHA-1 round constant K_t. -/
def sha1K (t : Nat) : Nat :=
  if t < 20 then 0x5A827999
  else if t < 40 then 0x6ED9EBA1
  else if t < 60 then 0x8F1BBCDC
  else 0xCA62C1D6

/-- Modelled from the spec: the SHA-1 round function f_t. -/
def sha1F (t b c d : Nat) : Nat :=
  if t < 20 then (b &&& c) ||| ((b ^^^ 0xFFFFFFFF) &&& d)
  else if t < 40 then b ^^^ c ^^^ d
  else if t < 60 then (b &&& c) ||| (b &&& d) ||| (c &&& d)
  else b ^^^ c ^^^ d

/-- Big-endian packing of bytes into 32-bit words. -/
def bytesToWords : List Nat → List Nat
  | a :: b :: c :: d :: rest => (((a * 256 + b) * 256 + c) * 256 + d) :: bytesToWords rest
  | _ => []

/-- Big-endian bytes of one 32-bit word. -/
def wordBytes (x : Nat) : List Nat :=
  [x / 16777216 % 256, x / 65536 % 256, x / 256 % 256, x % 256]

/-- Modelled from the spec: SHA-1 message padding (append `0x80`, zero fill
to 56 mod 64, then the 64-bit big-endian bit length). -/
def sha1Pad (m : List Nat) : List Nat :=
  let padlen := (64 + 56 - (m.length + 1) % 64) % 64
  let bits := 8 * m.length
  m ++ 0x80 :: List.replicate padlen 0 ++
    [bits / 2 ^ 56 % 256, bits / 2 ^ 48 % 256, bits / 2 ^ 40 % 256,
     bits / 2 ^ 32 % 256, bits / 2 ^ 24 % 256, bits / 2 ^ 16 % 256,
     bits / 2 ^ 8 % 256, bits % 256]

/-- Extend 16 schedule words to 80. -/
def sha1Schedule (ws : List Nat) : List Nat :=
  (List.range 64).foldl
    (fun acc _ =>
      let l := acc.length
      acc ++ [rotl32 1 (acc.getD (l - 3) 0 ^^^ acc.getD (l - 8) 0 ^^^
                        acc.getD (l - 14) 0 ^^^ acc.getD (l - 16) 0)])
    ws

/-- One SHA-1 compression round. -/
def sha1Round (st : Nat × Nat × Nat × Nat × Nat) (tw : Nat × Nat) :
    Nat × Nat × Nat × Nat × Nat :=
  let (a, b, c, d, e) := st
  let (t, wt) := tw
  let tmp := w32 (rotl32 5 a + sha1F t b c d + e + sha1K t + wt)
  (tmp, a, rotl32 30 b, c, d)

/-- Process one 64-byte block. -/
def sha1Block (h : Nat × Nat × Nat × Nat × Nat) (block : List Nat) :
    Nat × Nat × Nat × Nat × Nat :=
  let ws := sha1Schedule (bytesToWords block)
  let (a, b, c, d, e) :=
    ((List.range 80).zip ws).foldl sha1Round h
  (w32 (h.1 + a), w32 (h.2.1 + b), w32 (h.2.2.1 + c),
   w32 (h.2.2.2.1 + d), w32 (h.2.2.2.2 + e))

/-- Fold over consecutive 64-byte blocks (fuel-indexed so the kernel can
reduce it; the fuel `l.length` always suffices since every step consumes
at least one byte). -/
def sha1BlocksGo (h : Nat × Nat × Nat × Nat × Nat) :
    Nat → List Nat → Nat × Nat × Nat × Nat × Nat
  | _, [] => h
  | 0, _ => h
  | fuel + 1, l => sha1BlocksGo (sha1Block h (l.take 64)) fuel (l.drop 64)

/-- Fold over consecutive 64-byte blocks. -/
def sha1Blocks (h : Nat × Nat × Nat × Nat × Nat) (l : List Nat) :
    Nat × Nat × Nat × Nat × Nat :=
  sha1BlocksGo h l.length l

/-- Modelled from the spec: one-shot SHA-1 over a byte sequence (the
repository's `SHA1`, supplied by its bundled/openssl hash code, not under
`src/`). Returns the 20 digest bytes. -/
def sha1 (m : List Nat) : List Nat :=
  let (a, b, c, d, e) :=
    sha1Blocks (0x67452301, 0xEFCDAB89, 0x98BADCFE, 0x10325476, 0xC3D2E1F0)
      (sha1Pad m)
  wordBytes a ++ wordBytes b ++ wordBytes c ++ wordBytes d ++ wordBytes e

/- ## Handshake generator (`libwebsockets_generate_client_handshake`) -/

/-- The fixed GUID `magic_websocket_guid` of `lib/client.c`. -/
def magicWebsocketGuid : String := "258EAFA5-E914-47DA-95CA-C5AB0DC85B11"

/-- The connection fields consumed by the generator (`wsi->c_path`,
`wsi->c_host`, `wsi->c_origin`, `wsi->c_protocol`,
`wsi->ietf_spec_revision`); `none` models a NULL pointer. -/
structure GConn where
  c_path : String
  c_host : String
  c_origin : Option String
  c_protocol : Option String
  ietf_spec_revision : Nat

/-- One entry of `context->extensions` as the generator uses it: its name
and the result its callback returns for
`LWS_EXT_CALLBACK_CHECK_OK_TO_PROPOSE_EXTENSION` on a given candidate
name (0 = no objection, following the source's `n |=` accumulation). -/
structure GExt where
  name : String
  checkOk : String → Nat

/-- The extension-proposal loop of `libwebsockets_generate_client_handshake`
(lines 784-828): for each registered extension, OR together the
`CHECK_OK_TO_PROPOSE_EXTENSION` answers of every registered extension
(the inner loop runs over the whole registry, including the candidate
itself); a nonzero OR vetoes; then the user callback
`LWS_CALLBACK_CLIENT_CONFIRM_EXTENSION_SUPPORTED` (nonzero = reject);
survivors are kept in registry order. -/
def proposeLoop (all : List GExt) (confirm : String → Nat) :
    List GExt → List String
  | [] => []
  | e :: rest =>
    let n := all.foldl (fun acc e1 => acc ||| e1.checkOk e.name) 0
    if n ≠ 0 then proposeLoop all confirm rest
    else if confirm e.name ≠ 0 then proposeLoop all confirm rest
    else e.name :: proposeLoop all confirm rest

/-- Names proposed in the `Sec-WebSocket-Extensions:` request header. -/
def proposeExtensions (exts : List GExt) (confirm : String → Nat) :
    List String :=
  proposeLoop exts confirm exts

/-- The claim's variant of the proposal filter, following the spec's words:
only every *other* registered extension (not the candidate itself) is
polled with `CHECK_OK_TO_PROPOSE_EXTENSION`. Kept separate from
`proposeExtensions` (which is translated from the source) so the two can
be compared. -/
def proposeExtensionsSpecOthers (exts : List GExt) (confirm : String → Nat) :
    List String :=
  (List.range exts.length).filterMap fun idx =>
    let e := exts.getD idx ⟨"", fun _ => 0⟩
    if ((List.range exts.length).all fun j =>
          j == idx || (exts.getD j ⟨"", fun _ => 0⟩).checkOk e.name == 0)
        && confirm e.name == 0
    then some e.name else none

/-- The request bytes produced by the `sprintf` sequence of
`libwebsockets_generate_client_handshake` (lines 757-842), with the
proposed extension names and the bytes appended by the user's
`CLIENT_APPEND_HANDSHAKE_HEADER` callback as parameters. -/
def buildClientRequest (conn : GConn) (extNames : List String)
    (userAppend key_b64 : String) : String :=
  "GET " ++ conn.c_path ++ " HTTP/1.1\r\n" ++
  "Pragma: no-cache\r\nCache-Control: no-cache\r\n" ++
  ("Host: " ++ conn.c_host ++ "\r\n") ++
  "Upgrade: websocket\r\nConnection: Upgrade\r\nSec-WebSocket-Key: " ++
  key_b64 ++ "\r\n" ++
  (match conn.c_origin with
   | some o =>
       if conn.ietf_spec_revision = 13 then "Origin: " ++ o ++ "\r\n"
       else "Sec-WebSocket-Origin: " ++ o ++ "\r\n"
   | none => "") ++
  (match conn.c_protocol with
   | some pr => "Sec-WebSocket-Protocol: " ++ pr ++ "\r\n"
   | none => "") ++
  ("Sec-WebSocket-Extensions: " ++ String.intercalate (",") extNames ++ "\r\n") ++
  (if conn.ietf_spec_revision ≠ 0 then
     "Sec-WebSocket-Version: " ++ toString conn.ietf_spec_revision ++ "\r\n"
   else "") ++
  userAppend ++
  "\r\n"

/-- The expected `Sec-WebSocket-Accept` value the generator precomputes and
stores into `wsi->u.hdr.initial_handshake_hash_base64` (lines 846-852):
base64 of SHA-1 over `key_b64 ‖ GUID`. -/
def computeExpectedAccept (key_b64 : String) : String :=
  lwsB64Encode (sha1 (strBytes (key_b64 ++ magicWebsocketGuid)))

/-- `libwebsockets_generate_client_handshake`: `r` is what the random
source returned (the source requires exactly 16 bytes, else it bails and
returns NULL, modelled as `none`). On success: the request bytes and the
stored expected accept value. -/
def generateClientHandshake (conn : GConn) (exts : List GExt)
    (confirm : String → Nat) (userAppend : String) (r : List Nat) :
    Option (String × String) :=
  if r.length ≠ 16 then none
  else
    let key_b64 := lwsB64Encode r
    some (buildClientRequest conn (proposeExtensions exts confirm) userAppend key_b64,
          computeExpectedAccept key_b64)

/-- The claim's formula for the stored accept value, written from the
spec's words: `base64(SHA1(base64(r) ‖ GUID))`. -/
def specExpectedAccept (r : List Nat) : String :=
  lwsB64Encode (sha1 (strBytes (lwsB64Encode r) ++ strBytes magicWebsocketGuid))

/- ## Reply-reading loop of `lws_client_socket_service` (C3) -/

/-- Modelled from the spec: completion condition of the repository's
byte-fed header parser `libwebsocket_parse` (`lib/parser.c`, not under
`src/`). Per spec 4.1/8, the parser reports `complete` exactly when the
bytes fed so far end with the terminating `\r\n\r\n` of the HTTP
response. The parser state is modelled as the bytes fed so far. -/
def parsingComplete (seen : List Char) : Bool :=
  ['\r', '\n', '\r', '\n'].isSuffixOf seen

/-- The `WAITING_SERVER_REPLY` read loop of `lws_client_socket_service`
(lines 273-295): while the parser has not reported complete and bytes are
available, take exactly one byte from the transport and feed it. Returns
the number of bytes consumed and the bytes left in the transport. -/
def readLoop : List Char → List Char → Nat × List Char
  | seen, s =>
    if parsingComplete seen then (0, s)
    else
      match s with
      | [] => (0, [])
      | c :: cs =>
        let r := readLoop (seen ++ [c]) cs
        (r.1 + 1, r.2)

/- ## Handshake interpreter (`lws_client_interpret_server_handshake`) -/

/-- One entry of the `context->protocols` registry (entries before the
NULL-callback terminator; every listed entry has a callback). -/
structure Proto where
  name : String
  rx_buffer_size : Nat
  per_session_data_size : Nat
deriving DecidableEq, Repr

/-- Close statuses used by the client handshake code. -/
inductive CloseStatus
  | nostatus
  | protocolErr
deriving DecidableEq, Repr

/-- Observable actions of the interpreter, in program order: heap releases
and allocations of connection-owned blocks, user callbacks, extension
callbacks, and the final session close. -/
inductive Act
  | freeCProto
  | freeHdrTokens
  | mallocExtBlock (name : String)
  | clientConstruct (name : String)
  | filterPreEstablish
  | mallocUserSpace
  | mallocRx (size : Nat)
  | clientEstablished
  | anyWsiEstablished (name : String)
  | connError
  | close (st : CloseStatus)
deriving DecidableEq, Repr

/-- Validation failure reasons, one per bail site of the interpreter. -/
inductive Reason
  | badStatus
  | badUpgrade
  | badConnection
  | unknownProtocol
  | unknownExt
  | badAccept
  | allocFail
deriving DecidableEq, Repr

/-- Result of one interpreter run (`0` = ok, `1` = failed in the source). -/
inductive IResult
  | ok
  | fail (r : Reason)
deriving DecidableEq, Repr

/-- Everything `lws_client_interpret_server_handshake` reads: the two
registries, the connection fields, the parsed header tokens (a token is
the owned string the parser stored; `""` models `token_len == 0`), the
precomputed accept value, the malloc oracle (`allocOk k` tells whether
the `k`-th allocation of this run succeeds), and the sizing constants
`LWS_MAX_SOCKET_IO_BUF`, `LWS_SEND_BUFFER_PRE_PADDING`,
`LWS_SEND_BUFFER_POST_PADDING` (values live in headers outside `src/`,
kept symbolic). -/
structure HandshakeHdrs where
  http : String
  upgrade : String
  connection : String
  accept : String
  protocol : String
  extensions : String
deriving DecidableEq, Repr

structure InterpIn where
  protocols : List Proto
  extRegistry : List String
  c_protocol : Option String
  hasCallback : Bool
  hdrs : HandshakeHdrs
  expectedAccept : String
  allocOk : Nat → Bool
  defaultIoBuf : Nat
  prePad : Nat
  postPad : Nat

/-- Output of one interpreter run. -/
structure InterpOut where
  trace : List Act
  result : IResult
  selected : Option Proto
deriving Repr

/-- Trace of the `bail2` label (lines 674-689): `CLIENT_CONNECTION_ERROR`
if a callback binding exists, free the header tokens still owned
(pointers were zeroed by the union `memset` on the success path), close
with `PROTOCOL_ERR`. -/
def bail2Trace (hasCb hdrsAlive : Bool) : List Act :=
  (if hasCb then [Act.connError] else []) ++
  (if hdrsAlive then [Act.freeHdrTokens] else []) ++
  [Act.close CloseStatus.protocolErr]

/-- Trace of the `bail3` label (lines 670-672 falling through to `bail2`):
free `c_protocol` if the pointer is non-NULL, then `bail2`. -/
def bail3Trace (cPtr hasCb hdrsAlive : Bool) : List Act :=
  (if cPtr then [Act.freeCProto] else []) ++ bail2Trace hasCb hdrsAlive

/- ### Protocol matching (lines 438-484) -/

/-- First skip loop of the protocol match (line 446-447): advance to the
next `,` or the end of the string. -/
def skipToComma : List Char → List Char
  | [] => []
  | ch :: cs => if ch = ',' then ch :: cs else skipToComma cs

/-- Second skip loop of the protocol match (line 448-449): advance to the
next space or the end of the string. -/
def skipToSpace : List Char → List Char
  | [] => []
  | ch :: cs => if ch = ' ' then ch :: cs else skipToSpace cs

/-- One comparison of the protocol match loop (lines 439-442):
`strncmp(pc, token, token_len) == 0` and the character following the
match is `,` or the terminating NUL. -/
def protoMatchAt (pc tok : List Char) : Bool :=
  tok.isPrefixOf pc && (pc.length = tok.length || pc.getD tok.length 'a' = ',')

/-- The `while (*pc && !okay)` loop of lines 438-450, fuel-indexed (each
iteration strictly advances `pc`, so fuel `pc.length + 1` suffices). -/
def protoOfferLoop (tok : List Char) : Nat → List Char → Bool
  | 0, _ => false
  | _, [] => false
  | fuel + 1, pc =>
    if protoMatchAt pc tok then true
    else protoOfferLoop tok fuel (skipToSpace (skipToComma pc))

/-- Whether the protocol token the server sent survives the offered-list
match loop of the source. -/
def protoOffered (offered tok : String) : Bool :=
  protoOfferLoop tok.data (offered.data.length + 1) offered.data

/-- Protocol selection (lines 423-484). `none` result models reaching
`bail2` (`okay == 0`, or no registry entry named like the token). On the
empty-token fast path the first registry entry is picked (the C code
indexes `context->protocols[0]`, which always exists in a live context;
theorems about this path assume a non-empty registry). The guarded
`free(wsi->c_protocol)` of both branches is recorded by the caller.
A NULL `c_protocol` together with a non-empty protocol token would
dereference NULL in the C loop (undefined behavior); the model treats it
as a failed match. -/
def protoSelection (i : InterpIn) : Option Proto :=
  if i.hdrs.protocol = "" then some (i.protocols.headD ⟨"", 0, 0⟩)
  else if protoOffered (i.c_protocol.getD ("")) i.hdrs.protocol then
    i.protocols.find? (fun p => p.name = i.hdrs.protocol)
  else none

/- ### Server extension list (lines 491-574) -/

/-- Separator set of the extension-list tokenizer (line 505). -/
def isSepC (ch : Char) : Bool := ch = ',' || ch = ' ' || ch = '\t'

/-- The tokenizer of the server's `Sec-WebSocket-Extensions` value
(lines 501-518): accumulate non-separator characters; at a separator an
empty accumulated name is skipped (`if (!n) continue`), but the final
name reached at the terminating NUL is processed even when empty. -/
def extTok (acc : List Char) : List Char → List (List Char)
  | [] => [acc]
  | ch :: cs =>
    if isSepC ch then
      if acc.isEmpty then extTok [] cs else acc :: extTok [] cs
    else extTok (acc ++ [ch]) cs

/-- Names the extension loop checks, in server order. The 128-byte
`ext_name` buffer truncates a name to its first 127 characters. -/
def extTokenize (s : String) : List String :=
  (extTok [] s.data).map (fun l => String.mk (l.take 127))

/-- Result of processing extension names: events so far plus either the
updated malloc counter or the reason (`bail2`) that aborted the loop. -/
inductive ExtLoopRes
  | ok (evs : List Act) (ctr : Nat)
  | err (evs : List Act) (r : Reason)
deriving Repr

/-- Registry scan for one server-named extension (lines 524-565): every
registry entry with a matching name gets a zeroed per-session block
(`malloc`; its failure is `goto bail2`) and a `CLIENT_CONSTRUCT`
callback. The returned flag is the source's `n`, 1 iff some entry
matched. -/
def extScanOne (nm : String) (alloc : Nat → Bool) :
    List String → Nat → Option (List Act × Bool × Nat)
  | [], ctr => some ([], false, ctr)
  | e :: rest, ctr =>
    if e = nm then
      if alloc ctr then
        match extScanOne nm alloc rest (ctr + 1) with
        | some (evs, _, ctr2) =>
            some (Act.mallocExtBlock nm :: Act.clientConstruct nm :: evs, true, ctr2)
        | none => none
      else none
    else extScanOne nm alloc rest ctr

/-- The outer extension loop over the tokenized server list: an unmatched
name is `goto bail2` (lines 567-571), a failed block allocation is
`goto bail2` (lines 542-546). -/
def extLoop (reg : List String) (alloc : Nat → Bool) :
    List String → Nat → ExtLoopRes
  | [], ctr => ExtLoopRes.ok [] ctr
  | nm :: rest, ctr =>
    match extScanOne nm alloc reg ctr with
    | none => ExtLoopRes.err [] Reason.allocFail
    | some (evs, found, ctr2) =>
      if found then
        match extLoop reg alloc rest ctr2 with
        | ExtLoopRes.ok evs2 ctr3 => ExtLoopRes.ok (evs ++ evs2) ctr3
        | ExtLoopRes.err evs2 r => ExtLoopRes.err (evs ++ evs2) r
      else ExtLoopRes.err evs Reason.unknownExt

/- ### Success path and assembly -/

/-- Receive-buffer sizing of the success path (lines 630-633): the
protocol's `rx_buffer_size`, or `LWS_MAX_SOCKET_IO_BUF` when that is 0,
plus the send-buffer pre- and post-padding. -/
def rxAllocSize (rxsize dflt pre post : Nat) : Nat :=
  (if rxsize = 0 then dflt else rxsize) + pre + post

/-- Post-validation tail of the interpreter (lines 593-668): optional user
space, `FILTER_PRE_ESTABLISH`, free of the parser tokens, union
transition (which zeroes the token pointers), rx-buffer allocation
(failure is `goto bail3` — note `c_protocol` was already freed in the
protocol phase), `CLIENT_ESTABLISHED`, and `ANY_WSI_ESTABLISHED` for
every registered extension in registry order. -/
def successPath (i : InterpIn) (sel : Proto) (tr : List Act) (cPtr : Bool)
    (ctr : Nat) : InterpOut :=
  let afterUser :=
    if sel.per_session_data_size ≠ 0 then
      if i.allocOk ctr then some (tr ++ [Act.mallocUserSpace], ctr + 1)
      else none
    else some (tr, ctr)
  match afterUser with
  | none =>
      { trace := tr ++ bail2Trace true true,
        result := IResult.fail Reason.allocFail, selected := some sel }
  | some (tr2, ctr2) =>
    let tr3 := tr2 ++ [Act.filterPreEstablish, Act.freeHdrTokens]
    let sz := rxAllocSize sel.rx_buffer_size i.defaultIoBuf i.prePad i.postPad
    if i.allocOk ctr2 then
      { trace := tr3 ++ [Act.mallocRx sz, Act.clientEstablished] ++
                 i.extRegistry.map Act.anyWsiEstablished,
        result := IResult.ok, selected := some sel }
    else
      { trace := tr3 ++ bail3Trace cPtr true false,
        result := IResult.fail Reason.allocFail, selected := some sel }

/-- Extension phase (label `check_extensions`, lines 487-574) followed by
the accept check (label `check_accept`, lines 576-590) and the success
tail. After protocol selection the connection's `c_callback` is bound,
so later `bail2`s always deliver `CLIENT_CONNECTION_ERROR`. -/
def checkExtensions (i : InterpIn) (sel : Proto) (tr : List Act)
    (cPtr : Bool) : InterpOut :=
  let afterExt :=
    if i.hdrs.extensions = "" then ExtLoopRes.ok [] 0
    else extLoop i.extRegistry i.allocOk (extTokenize i.hdrs.extensions) 0
  match afterExt with
  | ExtLoopRes.err evs r =>
      { trace := tr ++ evs ++ bail2Trace true true,
        result := IResult.fail r, selected := some sel }
  | ExtLoopRes.ok evs ctr =>
    if i.hdrs.accept = i.expectedAccept then
      successPath i sel (tr ++ evs) cPtr ctr
    else
      { trace := tr ++ evs ++ bail2Trace true true,
        result := IResult.fail Reason.badAccept, selected := some sel }

/-- `lws_client_interpret_server_handshake` (lines 350-690). The first
three checks lower-case the stored token in place and compare: status
must begin with `101` (`strncmp` on 3 bytes), `Upgrade` must equal
`websocket`, `Connection` must equal `upgrade`; their failures go to
`bail3`. Then protocol selection (failure: `bail2`), extensions, accept,
and the success tail. -/
def interpret (i : InterpIn) : InterpOut :=
  let cPtr := i.c_protocol.isSome
  if strncmpOk ("101") (lowerStr i.hdrs.http) then
    if lowerStr i.hdrs.upgrade = "websocket" then
      if lowerStr i.hdrs.connection = "upgrade" then
        let tr1 := if cPtr then [Act.freeCProto] else []
        match protoSelection i with
        | none =>
          { trace := tr1 ++ bail2Trace i.hasCallback true,
            result := IResult.fail Reason.unknownProtocol, selected := none }
        | some sel => checkExtensions i sel tr1 cPtr
      else
        { trace := bail3Trace cPtr i.hasCallback true,
          result := IResult.fail Reason.badConnection, selected := none }
    else
      { trace := bail3Trace cPtr i.hasCallback true,
        result := IResult.fail Reason.badUpgrade, selected := none }
  else
    { trace := bail3Trace cPtr i.hasCallback true,
      result := IResult.fail Reason.badStatus, selected := none }

/- ## `WAITING_SERVER_REPLY` readiness dispatch (lines 238-320) -/

/-- The `revents` bits the dispatch consults (plus `POLLOUT`, which it
ignores in this mode). -/
structure PollEv where
  pollin : Bool
  pollout : Bool
  pollerr : Bool
  pollhup : Bool
deriving DecidableEq, Repr

/-- What the `WAITING_SERVER_REPLY` arm does before any byte is read:
`POLLERR`/`POLLHUP` is the dead-server bail (`goto bail3`, line 242-248),
and so is the absence of `POLLIN` (lines 250-251). `bail3` here frees
`c_protocol` when non-NULL and closes with `NOSTATUS` (lines 314-320).
Otherwise the byte-wise read loop runs. -/
inductive WsrAction
  | proceedRead
  | bail (freedCProto : Bool) (st : CloseStatus)
deriving DecidableEq, Repr

def wsrDispatch (ev : PollEv) (cProtoPtr : Bool) : WsrAction :=
  if ev.pollerr || ev.pollhup then WsrAction.bail cProtoPtr CloseStatus.nostatus
  else if !ev.pollin then WsrAction.bail cProtoPtr CloseStatus.nostatus
  else WsrAction.proceedRead

/- ## Helper lemmas -/

theorem strBytes_append (a b : String) :
    strBytes (a ++ b) = strBytes a ++ strBytes b := by
  simp [strBytes, String.data_append]

theorem lorZero (a b : Nat) : a ||| b = 0 ↔ a = 0 ∧ b = 0 := by
  constructor
  · intro h
    refine ⟨Nat.eq_of_testBit_eq fun idx => ?_, Nat.eq_of_testBit_eq fun idx => ?_⟩ <;>
    · have hbit := congrArg (fun x => Nat.testBit x idx) h
      simp only [Nat.testBit_lor, Nat.zero_testBit, Bool.or_eq_false_iff] at hbit
      simp [hbit.1, hbit.2]
  · rintro ⟨rfl, rfl⟩
    rfl

theorem foldlLorZero (s : String) :
    ∀ (l : List GExt) (acc : Nat),
      (l.foldl (fun a e1 => a ||| e1.checkOk s) acc = 0) ↔
        (acc = 0 ∧ ∀ e1 ∈ l, e1.checkOk s = 0) := by
  intro l
  induction l with
  | nil => simp
  | cons e rest ih =>
    intro acc
    simp only [List.foldl_cons, ih, lorZero, List.forall_mem_cons]
    tauto

theorem bail2Trace_getLast (a b : Bool) :
    (bail2Trace a b).getLast? = some (Act.close CloseStatus.protocolErr) := by
  cases a <;> cases b <;> rfl

theorem getLast_append_bail2 (xs : List Act) (a b : Bool) :
    (xs ++ bail2Trace a b).getLast? = some (Act.close CloseStatus.protocolErr) := by
  rw [List.getLast?_append, bail2Trace_getLast]
  rfl

theorem bail3_split (c a b : Bool) :
    bail3Trace c a b = (if c then [Act.freeCProto] else []) ++ bail2Trace a b := rfl

theorem getLast_bail3 (c a b : Bool) :
    (bail3Trace c a b).getLast? = some (Act.close CloseStatus.protocolErr) := by
  rw [bail3_split]
  exact getLast_append_bail2 _ a b

theorem getLast_append_bail3 (xs : List Act) (c a b : Bool) :
    (xs ++ bail3Trace c a b).getLast? = some (Act.close CloseStatus.protocolErr) := by
  rw [bail3_split, ← List.append_assoc]
  exact getLast_append_bail2 _ a b

theorem connError_mem_bail2 (b : Bool) : Act.connError ∈ bail2Trace true b := by
  cases b <;> simp [bail2Trace]

theorem connError_mem_bail3 (c b : Bool) : Act.connError ∈ bail3Trace c true b := by
  rw [bail3_split]
  exact List.mem_append_right _ (connError_mem_bail2 b)

/-- Events the registry scan produces for one server-named extension when
every allocation succeeds: one block allocation plus one
`CLIENT_CONSTRUCT` per registry entry carrying that name. -/
def constructEvents (reg : List String) (nm : String) : List Act :=
  (reg.filter (fun e => e = nm)).flatMap
    (fun _ => [Act.mallocExtBlock nm, Act.clientConstruct nm])

theorem extScanOne_spec (nm : String) (alloc : Nat → Bool)
    (hAl : ∀ k, alloc k = true) :
    ∀ (reg : List String) (ctr : Nat), ∃ ctr2,
      extScanOne nm alloc reg ctr =
        some (constructEvents reg nm, decide (nm ∈ reg), ctr2) := by
  intro reg
  induction reg with
  | nil => intro ctr; exact ⟨ctr, by simp [extScanOne, constructEvents]⟩
  | cons e rest ih =>
    intro ctr
    by_cases he : e = nm
    · obtain ⟨ctr2, h2⟩ := ih (ctr + 1)
      refine ⟨ctr2, ?_⟩
      simp [extScanOne, he, hAl ctr, h2, constructEvents, List.filter_cons]
    · obtain ⟨ctr2, h2⟩ := ih ctr
      refine ⟨ctr2, ?_⟩
      have hne : nm ≠ e := fun h => he h.symm
      simp [extScanOne, he, h2, constructEvents, List.filter_cons, hne]

theorem extLoop_ok_of (reg : List String) (alloc : Nat → Bool)
    (hAl : ∀ k, alloc k = true) :
    ∀ (names : List String) (ctr : Nat), (∀ nm ∈ names, nm ∈ reg) →
      ∃ ctr2, extLoop reg alloc names ctr =
        ExtLoopRes.ok (names.flatMap (fun nm => constructEvents reg nm)) ctr2 := by
  intro names
  induction names with
  | nil => intro ctr _; exact ⟨ctr, by simp [extLoop]⟩
  | cons nm rest ih =>
    intro ctr hmem
    obtain ⟨ctr2, hScan⟩ := extScanOne_spec nm alloc hAl reg ctr
    obtain ⟨ctr3, hRest⟩ := ih ctr2 (fun x hx => hmem x (List.mem_cons_of_mem _ hx))
    refine ⟨ctr3, ?_⟩
    have hin : nm ∈ reg := hmem nm (List.mem_cons_self _ _)
    simp [extLoop, hScan, hin, hRest]

theorem extLoop_ok_names (reg : List String) (alloc : Nat → Bool)
    (hAl : ∀ k, alloc k = true) :
    ∀ (names : List String) (ctr evs : _) (ctr2 : Nat),
      extLoop reg alloc names ctr = ExtLoopRes.ok evs ctr2 →
      ∀ nm ∈ names, nm ∈ reg := by
  intro names
  induction names with
  | nil => intro _ _ _ _ nm h; exact absurd h (List.not_mem_nil nm)
  | cons hd rest ih =>
    intro ctr evs ctr2 hEq nm hm
    obtain ⟨ctrS, hScan⟩ := extScanOne_spec hd alloc hAl reg ctr
    by_cases hin : hd ∈ reg
    · rcases List.mem_cons.mp hm with rfl | hm2
      · exact hin
      · simp only [extLoop, hScan, hin] at hEq
        rw [if_pos (by simp [hin])] at hEq
        rcases hRest : extLoop reg alloc rest ctrS with _ | _
        · rw [hRest] at hEq
          exact ih ctrS _ _ hRest nm hm2
        · rw [hRest] at hEq
          exact absurd hEq (by simp)
    · simp [extLoop, hScan, hin] at hEq

theorem extLoop_err_exists (reg : List String) (alloc : Nat → Bool)
    (hAl : ∀ k, alloc k = true) :
    ∀ (names : List String) (ctr : Nat), ¬ (∀ nm ∈ names, nm ∈ reg) →
      ∃ evs r, extLoop reg alloc names ctr = ExtLoopRes.err evs r := by
  intro names
  induction names with
  | nil => intro ctr h; exact absurd (by simp) h
  | cons hd rest ih =>
    intro ctr h
    obtain ⟨ctrS, hScan⟩ := extScanOne_spec hd alloc hAl reg ctr
    by_cases hin : hd ∈ reg
    · have hrest : ¬ ∀ nm ∈ rest, nm ∈ reg := by
        intro hall
        exact h (List.forall_mem_cons.mpr ⟨hin, hall⟩)
      obtain ⟨evs, r, hErr⟩ := ih ctrS hrest
      refine ⟨constructEvents reg hd ++ evs, r, ?_⟩
      simp [extLoop, hScan, hin, hErr]
    · refine ⟨constructEvents reg hd, Reason.unknownExt, ?_⟩
      simp [extLoop, hScan, hin]

/-- Events of the extension phase when every allocation succeeds and every
server-named extension is registered. -/
def extPhaseEvents (reg : List String) (hdrExt : String) : List Act :=
  if hdrExt = "" then []
  else (extTokenize hdrExt).flatMap (fun nm => constructEvents reg nm)

/-- The full interpreter trace on the success path. -/
def successTrace (i : InterpIn) (sel : Proto) : List Act :=
  (if i.c_protocol.isSome then [Act.freeCProto] else []) ++
  extPhaseEvents i.extRegistry i.hdrs.extensions ++
  (if sel.per_session_data_size ≠ 0 then [Act.mallocUserSpace] else []) ++
  [Act.filterPreEstablish, Act.freeHdrTokens,
   Act.mallocRx (rxAllocSize sel.rx_buffer_size i.defaultIoBuf i.prePad i.postPad),
   Act.clientEstablished] ++
  i.extRegistry.map Act.anyWsiEstablished

theorem interpret_success (i : InterpIn) (sel : Proto)
    (hS : strncmpOk ("101") (lowerStr i.hdrs.http) = true)
    (hU : lowerStr i.hdrs.upgrade = "websocket")
    (hC : lowerStr i.hdrs.connection = "upgrade")
    (hsel : protoSelection i = some sel)
    (hE : i.hdrs.extensions ≠ "" → ∀ nm ∈ extTokenize i.hdrs.extensions, nm ∈ i.extRegistry)
    (hA : i.hdrs.accept = i.expectedAccept)
    (hAl : ∀ k, i.allocOk k = true) :
    interpret i =
      { trace := successTrace i sel, result := IResult.ok, selected := some sel } := by
  have hsucc : ∀ (tr : List Act) (cPtr : Bool) (ctr : Nat),
      successPath i sel tr cPtr ctr =
        { trace := tr ++
            (if sel.per_session_data_size ≠ 0 then [Act.mallocUserSpace] else []) ++
            [Act.filterPreEstablish, Act.freeHdrTokens,
             Act.mallocRx (rxAllocSize sel.rx_buffer_size i.defaultIoBuf i.prePad i.postPad),
             Act.clientEstablished] ++
            i.extRegistry.map Act.anyWsiEstablished,
          result := IResult.ok, selected := some sel } := by
    intro tr cPtr ctr
    by_cases hps : sel.per_session_data_size ≠ 0 <;>
      simp [successPath, hps, hAl ctr, hAl (ctr + 1), List.append_assoc]
  by_cases hext : i.hdrs.extensions = ""
  · simp [interpret, hS, hU, hC, hsel, checkExtensions, hext, hA, hsucc,
          successTrace, extPhaseEvents, List.append_assoc]
  · obtain ⟨ctr2, hLoop⟩ :=
      extLoop_ok_of i.extRegistry i.allocOk hAl (extTokenize i.hdrs.extensions) 0 (hE hext)
    simp [interpret, hS, hU, hC, hsel, checkExtensions, hext, hLoop, hA, hsucc,
          successTrace, extPhaseEvents, List.append_assoc]

/-- The protocol rule of the amended acceptance condition: header absent,
or the header token survives the source's offered-list match loop and some
registry entry carries its name. -/
def protoClause (i : InterpIn) : Prop :=
  i.hdrs.protocol = "" ∨
    (protoOffered (i.c_protocol.getD ("")) i.hdrs.protocol = true ∧
     (i.protocols.find? (fun p => p.name = i.hdrs.protocol)).isSome = true)

/-- The extension rule of the acceptance condition: header absent, or every
name the source tokenizer extracts is a registered extension name. -/
def extClause (i : InterpIn) : Prop :=
  i.hdrs.extensions = "" ∨ ∀ nm ∈ extTokenize i.hdrs.extensions, nm ∈ i.extRegistry

/-- Amended acceptance condition of the handshake interpreter. -/
def acceptConditions (i : InterpIn) : Prop :=
  strncmpOk ("101") (lowerStr i.hdrs.http) = true ∧
  lowerStr i.hdrs.upgrade = "websocket" ∧
  lowerStr i.hdrs.connection = "upgrade" ∧
  protoClause i ∧ extClause i ∧ i.hdrs.accept = i.expectedAccept

theorem protoSelection_isSome (i : InterpIn) :
    (protoSelection i).isSome = true ↔ protoClause i := by
  unfold protoSelection protoClause
  by_cases h0 : i.hdrs.protocol = ""
  · simp [h0]
  · by_cases h1 : protoOffered (i.c_protocol.getD ("")) i.hdrs.protocol = true
    · simp [h0, h1]
    · simp [h0, h1, Bool.not_eq_true _ ▸ h1]

theorem checkExtensions_selected (i : InterpIn) (sel : Proto) (tr : List Act)
    (cPtr : Bool) : (checkExtensions i sel tr cPtr).selected = some sel := by
  unfold checkExtensions successPath
  rcases (if i.hdrs.extensions = "" then ExtLoopRes.ok [] 0
          else extLoop i.extRegistry i.allocOk (extTokenize i.hdrs.extensions) 0) with
    _ | _ <;> dsimp only <;> split <;> try rfl
  all_goals (split <;> try rfl)
  all_goals (first | rfl | (split <;> rfl))

theorem c2_characterization (i : InterpIn) (hAl : ∀ k, i.allocOk k = true) :
    ((interpret i).result = IResult.ok ↔ acceptConditions i) ∧
    ((interpret i).result ≠ IResult.ok →
      ((interpret i).trace.getLast? = some (Act.close CloseStatus.protocolErr) ∧
       (i.hasCallback = true → Act.connError ∈ (interpret i).trace))) := by
  by_cases hS : strncmpOk ("101") (lowerStr i.hdrs.http) = true
  · by_cases hU : lowerStr i.hdrs.upgrade = "websocket"
    · by_cases hC : lowerStr i.hdrs.connection = "upgrade"
      · rcases hmatch : protoSelection i with _ | sel
        · have hnc : ¬ protoClause i := by
            rw [← protoSelection_isSome, hmatch]
            simp
          refine ⟨?_, fun _ => ⟨?_, fun hcb => ?_⟩⟩
          · simp [interpret, hS, hU, hC, hmatch, acceptConditions, hnc]
          · simp [interpret, hS, hU, hC, hmatch, getLast_append_bail2, bail2Trace_getLast]
          · simp [interpret, hS, hU, hC, hmatch, hcb, List.mem_append,
                  connError_mem_bail2]
        · by_cases hext : i.hdrs.extensions = ""
          · by_cases hA : i.hdrs.accept = i.expectedAccept
            · have hI := interpret_success i sel hS hU hC hmatch
                (fun hx => absurd hext hx) hA hAl
              rw [hI]
              refine ⟨iff_of_true rfl ?_, fun h => absurd rfl h⟩
              exact ⟨hS, hU, hC, (protoSelection_isSome i).mp (by rw [hmatch]; rfl),
                     Or.inl hext, hA⟩
            · refine ⟨?_, fun _ => ⟨?_, fun hcb => ?_⟩⟩
              · simp [interpret, hS, hU, hC, hmatch, checkExtensions, hext,
                      hA, acceptConditions]
              · simp [interpret, hS, hU, hC, hmatch, checkExtensions, hext,
                      hA, getLast_append_bail2, bail2Trace_getLast]
              · simp [interpret, hS, hU, hC, hmatch, checkExtensions, hext,
                      hA, List.mem_append, connError_mem_bail2]
          · by_cases hall : ∀ nm ∈ extTokenize i.hdrs.extensions, nm ∈ i.extRegistry
            · by_cases hA : i.hdrs.accept = i.expectedAccept
              · have hI := interpret_success i sel hS hU hC hmatch
                  (fun _ => hall) hA hAl
                rw [hI]
                refine ⟨iff_of_true rfl ?_, fun h => absurd rfl h⟩
                exact ⟨hS, hU, hC, (protoSelection_isSome i).mp (by rw [hmatch]; rfl),
                       Or.inr hall, hA⟩
              · obtain ⟨ctr2, hLoop⟩ := extLoop_ok_of i.extRegistry i.allocOk hAl
                  (extTokenize i.hdrs.extensions) 0 hall
                refine ⟨?_, fun _ => ⟨?_, fun hcb => ?_⟩⟩
                · simp [interpret, hS, hU, hC, hmatch, checkExtensions, hext,
                        hLoop, hA, acceptConditions]
                · simp [interpret, hS, hU, hC, hmatch, checkExtensions, hext,
                        hLoop, hA, getLast_append_bail2, bail2Trace_getLast, bail2Trace_getLast]
                · simp [interpret, hS, hU, hC, hmatch, checkExtensions, hext,
                        hLoop, hA, List.mem_append, connError_mem_bail2]
            · have hec : ¬ extClause i := by
                simp only [extClause, hext, false_or]
                exact hall
              obtain ⟨evs, r, hErr⟩ := extLoop_err_exists i.extRegistry i.allocOk hAl
                (extTokenize i.hdrs.extensions) 0 hall
              refine ⟨?_, fun _ => ⟨?_, fun hcb => ?_⟩⟩
              · simp [interpret, hS, hU, hC, hmatch, checkExtensions, hext,
                      hErr, acceptConditions, hec]
              · simp [interpret, hS, hU, hC, hmatch, checkExtensions, hext,
                      hErr, getLast_append_bail2, bail2Trace_getLast]
              · simp [interpret, hS, hU, hC, hmatch, checkExtensions, hext,
                      hErr, List.mem_append, connError_mem_bail2]
      · refine ⟨?_, fun _ => ⟨?_, fun hcb => ?_⟩⟩
        · simp [interpret, hS, hU, hC, acceptConditions]
        · simp [interpret, hS, hU, hC, getLast_bail3]
        · simp [interpret, hS, hU, hC, hcb, connError_mem_bail3]
    · refine ⟨?_, fun _ => ⟨?_, fun hcb => ?_⟩⟩
      · simp [interpret, hS, hU, acceptConditions]
      · simp [interpret, hS, hU, getLast_bail3]
      · simp [interpret, hS, hU, hcb, connError_mem_bail3]
  · refine ⟨?_, fun _ => ⟨?_, fun hcb => ?_⟩⟩
    · simp [interpret, hS, acceptConditions]
    · simp [interpret, hS, getLast_bail3]
    · simp [interpret, hS, hcb, connError_mem_bail3]

theorem readLoop_spec (s : List Char) :
    ∀ seen, (∃ m, m ≤ s.length ∧ parsingComplete (seen ++ s.take m) = true) →
      parsingComplete (seen ++ s.take (readLoop seen s).1) = true ∧
      (∀ m, m < (readLoop seen s).1 → parsingComplete (seen ++ s.take m) = false) ∧
      (readLoop seen s).2 = s.drop (readLoop seen s).1 ∧
      (readLoop seen s).1 ≤ s.length := by
  induction s with
  | nil =>
    rintro seen ⟨m, hm, hc⟩
    have hm0 : m = 0 := Nat.le_zero.mp hm
    subst hm0
    have hr : readLoop seen [] = (0, []) := by
      unfold readLoop
      split <;> rfl
    rw [hr]
    simp only [List.take_nil, List.append_nil] at hc
    refine ⟨by simpa using hc, fun m hm2 => absurd hm2 (by omega), rfl, le_refl 0⟩
  | cons c cs ih =>
    intro seen hex
    by_cases hc : parsingComplete seen = true
    · have hr : readLoop seen (c :: cs) = (0, c :: cs) := by
        unfold readLoop
        rw [if_pos hc]
      rw [hr]
      exact ⟨by simpa using hc, fun m hm2 => absurd hm2 (by omega), rfl, by omega⟩
    · have hcf : parsingComplete seen = false := by
        simpa using hc
      have hr : readLoop seen (c :: cs) =
          ((readLoop (seen ++ [c]) cs).1 + 1, (readLoop (seen ++ [c]) cs).2) := by
        rw [readLoop, if_neg hc]
      have hshift : ∀ t : List Char, seen ++ c :: t = (seen ++ [c]) ++ t := by
        intro t
        rw [List.append_assoc, List.singleton_append]
      obtain ⟨m, hm, hcm⟩ := hex
      have hex2 : ∃ m2, m2 ≤ cs.length ∧
          parsingComplete ((seen ++ [c]) ++ cs.take m2) = true := by
        cases m with
        | zero =>
          rw [List.take_zero, List.append_nil] at hcm
          exact absurd hcm (by simp [hcf])
        | succ m2 =>
          refine ⟨m2, by simpa using hm, ?_⟩
          rw [List.take_succ_cons, hshift] at hcm
          exact hcm
      obtain ⟨h1, h2, h3, h4⟩ := ih (seen ++ [c]) hex2
      rw [hr]
      refine ⟨?_, ?_, ?_, ?_⟩
      · rw [List.take_succ_cons, hshift]
        exact h1
      · intro m hm2
        cases m with
        | zero => simpa using hcf
        | succ m2 =>
          rw [List.take_succ_cons, hshift]
          exact h2 m2 (by omega)
      · rw [List.drop_succ_cons]
        exact h3
      · simpa using h4

theorem firstToken_offered (offered tok : String) (hne : tok.data ≠ [])
    (rest : List Char) (hsplit : offered.data = tok.data ++ rest)
    (hrest : rest = [] ∨ ∃ t, rest = ',' :: t) :
    protoOffered offered tok = true := by
  have hmatch : protoMatchAt offered.data tok.data = true := by
    unfold protoMatchAt
    rcases hrest with rfl | ⟨t, rfl⟩
    · rw [hsplit]
      simp [List.isPrefixOf_iff_prefix]
    · rw [hsplit]
      have h1 : tok.data.isPrefixOf (tok.data ++ ',' :: t) = true :=
        List.isPrefixOf_iff_prefix.mpr (List.prefix_append _ _)
      have hg : (tok.data ++ ',' :: t).getD tok.data.length 'a' = ',' := by
        rw [List.getD_append_right _ _ _ _ (le_refl _)]
        simp
      rw [h1, hg]
      simp
  have hOn : offered.data ≠ [] := by
    rw [hsplit]
    intro h
    exact hne (List.append_eq_nil.mp h).1
  obtain ⟨c0, cs0, hcc⟩ := List.exists_cons_of_ne_nil hOn
  unfold protoOffered
  rw [hcc] at hmatch ⊢
  have hred : protoOfferLoop tok.data ((c0 :: cs0).length + 1) (c0 :: cs0) =
      if protoMatchAt (c0 :: cs0) tok.data then true
      else protoOfferLoop tok.data (c0 :: cs0).length
        (skipToSpace (skipToComma (c0 :: cs0))) := rfl
  rw [hred, if_pos hmatch]

theorem proposeLoop_filter (all : List GExt) (confirm : String → Nat) :
    ∀ l, proposeLoop all confirm l =
      (l.filter (fun e => (all.all fun e1 => e1.checkOk e.name == 0) &&
                          (confirm e.name == 0))).map GExt.name := by
  intro l
  induction l with
  | nil => rfl
  | cons e rest ih =>
    by_cases hv : all.foldl (fun a e1 => a ||| e1.checkOk e.name) 0 = 0
    · have hall : ∀ e1 ∈ all, e1.checkOk e.name = 0 :=
        ((foldlLorZero e.name all 0).mp hv).2
      have hallb : (all.all fun e1 => e1.checkOk e.name == 0) = true := by
        rw [List.all_eq_true]
        intro e1 he1
        exact beq_iff_eq.mpr (hall e1 he1)
      by_cases hcf : confirm e.name = 0
      · simp [proposeLoop, hv, hcf, ih, List.filter_cons, hallb]
      · simp [proposeLoop, hv, hcf, ih, List.filter_cons, hallb]
    · have hnall : ¬ ∀ e1 ∈ all, e1.checkOk e.name = 0 := by
        intro hall
        exact hv ((foldlLorZero e.name all 0).mpr ⟨rfl, hall⟩)
      have hallb : (all.all fun e1 => e1.checkOk e.name == 0) = false := by
        rw [Bool.eq_false_iff]
        intro habs
        refine hnall fun e1 he1 => ?_
        exact beq_iff_eq.mp (List.all_eq_true.mp habs e1 he1)
      simp [proposeLoop, hv, ih, List.filter_cons, hallb]

/- ## C7 support: joining the spec's line list -/

/-- Concatenation of a list of strings (spec side of the wire-format
claim). -/
def joinStr : List String → String
  | [] => ""
  | s :: rest => s ++ joinStr rest

/-- The client request as the spec's section 6 lists it: one element per
line of the authoritative wire block (origin/protocol/version lines
present only under their conditions, user-appended bytes verbatim,
terminating CRLF last). -/
def specRequestLines (conn : GConn) (extNames : List String)
    (userAppend key_b64 : String) : List String :=
  ["GET " ++ conn.c_path ++ " HTTP/1.1\r\n",
   "Pragma: no-cache\r\n",
   "Cache-Control: no-cache\r\n",
   "Host: " ++ conn.c_host ++ "\r\n",
   "Upgrade: websocket\r\n",
   "Connection: Upgrade\r\n",
   "Sec-WebSocket-Key: " ++ key_b64 ++ "\r\n"] ++
  (match conn.c_origin with
   | none => []
   | some o =>
     [(if conn.ietf_spec_revision = 13 then "Origin: " else "Sec-WebSocket-Origin: ")
        ++ o ++ "\r\n"]) ++
  (match conn.c_protocol with
   | none => []
   | some pr => ["Sec-WebSocket-Protocol: " ++ pr ++ "\r\n"]) ++
  ["Sec-WebSocket-Extensions: " ++ String.intercalate (",") extNames ++ "\r\n"] ++
  (if conn.ietf_spec_revision ≠ 0 then
     ["Sec-WebSocket-Version: " ++ toString conn.ietf_spec_revision ++ "\r\n"]
   else []) ++
  [userAppend, "\r\n"]

theorem appendMergeL {α : Type} {a b c : List α} (h : a ++ b = c) :
    ∀ X : List α, a ++ (b ++ X) = c ++ X := by
  intro X
  rw [← List.append_assoc, h]

theorem appendMergeS {a b c : String} (h : a ++ b = c) :
    ∀ X : String, a ++ (b ++ X) = c ++ X := by
  intro X
  rw [← String.append_assoc, h]

theorem buildRequest_eq_spec (conn : GConn) (extNames : List String)
    (userAppend key_b64 : String) :
    buildClientRequest conn extNames userAppend key_b64 =
      joinStr (specRequestLines conn extNames userAppend key_b64) := by
  have m1 := appendMergeS (a := "Pragma: no-cache\r\n")
    (b := "Cache-Control: no-cache\r\n")
    (c := "Pragma: no-cache\r\nCache-Control: no-cache\r\n") rfl
  have m2 := appendMergeS (a := "Upgrade: websocket\r\n")
    (b := "Connection: Upgrade\r\n")
    (c := "Upgrade: websocket\r\nConnection: Upgrade\r\n") rfl
  have m3 := appendMergeS (a := "Upgrade: websocket\r\nConnection: Upgrade\r\n")
    (b := "Sec-WebSocket-Key: ")
    (c := "Upgrade: websocket\r\nConnection: Upgrade\r\nSec-WebSocket-Key: ") rfl
  have m4 := appendMergeS (a := " HTTP/1.1\r\n")
    (b := "Pragma: no-cache\r\nCache-Control: no-cache\r\n")
    (c := " HTTP/1.1\r\nPragma: no-cache\r\nCache-Control: no-cache\r\n") rfl
  have m5 := appendMergeS (a := "\r\n")
    (b := "Upgrade: websocket\r\nConnection: Upgrade\r\nSec-WebSocket-Key: ")
    (c := "\r\nUpgrade: websocket\r\nConnection: Upgrade\r\nSec-WebSocket-Key: ") rfl
  rcases ho : conn.c_origin with _ | o <;> rcases hp : conn.c_protocol with _ | pr <;>
    by_cases h13 : conn.ietf_spec_revision = 13 <;>
    by_cases h0 : conn.ietf_spec_revision ≠ 0 <;>
    simp [buildClientRequest, specRequestLines, joinStr, ho, hp, h13, h0,
          String.append_assoc, String.append_empty, m1, m2, m3, m4, m5]

/- ## Claim theorems -/

/-- The nonce named by claim C1: bytes 01 02 ... 0F 10. -/
def goldenNonce : List Nat := [1, 2, 3, 4, 5, 6, 7, 8, 9, 10, 11, 12, 13, 14, 15, 16]

set_option maxRecDepth 1000000 in
/-- C1, counterexample: at the claim's own nonce 01..10 the generator does
not store "9s+tbiL1atftAWKmEcpBvvOgk0E="; the value it stores is
"C/0nmHhBztSRGR1CwL6Tf4ZjwpY=" (see the amended theorem). -/
theorem c1_counterexample :
    (generateClientHandshake ⟨"/", "h", none, none, 13⟩ [] (fun _ => 0) ""
        goldenNonce).map Prod.snd ≠
      some ("9s+tbiL1atftAWKmEcpBvvOgk0E=") := by
  decide

set_option maxRecDepth 1000000 in
/-- C1 (amended): for every 16-byte nonce `r` returned by the random
source, the handshake generator stores
`expected_accept_b64 = base64(SHA1(base64(r) ++ GUID))`; in particular for
`r = 01 02 ... 0F 10` the stored value is
"C/0nmHhBztSRGR1CwL6Tf4ZjwpY=" (the claim's stated golden value
"9s+tbiL1atftAWKmEcpBvvOgk0E=" is wrong; everything else stands). -/
theorem c1_accept_correctness :
    (∀ (conn : GConn) (exts : List GExt) (confirm : String → Nat)
       (userAppend : String) (r : List Nat), r.length = 16 →
       (generateClientHandshake conn exts confirm userAppend r).map Prod.snd =
         some (specExpectedAccept r)) ∧
    specExpectedAccept goldenNonce = "C/0nmHhBztSRGR1CwL6Tf4ZjwpY=" := by
  constructor
  · intro conn exts confirm ua r hr
    simp [generateClientHandshake, hr, computeExpectedAccept, specExpectedAccept,
          strBytes_append]
  · decide

/-- Witness for C1's theorem at the golden nonce. -/
theorem c1_accept_correctness_witness :
    (generateClientHandshake ⟨"/", "h", none, none, 13⟩ [] (fun _ => 0) ""
        goldenNonce).map Prod.snd = some (specExpectedAccept goldenNonce) :=
  c1_accept_correctness.1 ⟨"/", "h", none, none, 13⟩ [] (fun _ => 0) ""
    goldenNonce (by decide)

/-- Input for C2's counterexample: the server-named sub-protocol "chat" is
a comma-separated token of the offered list, and every header value the
claim enumerates is good, but no registry entry is named "chat". -/
def c2cexInput : InterpIn :=
  { protocols := [⟨"other", 0, 0⟩], extRegistry := [],
    c_protocol := some ("chat"), hasCallback := true,
    hdrs := ⟨"101 switching protocols", "WebSocket", "Upgrade",
             "AcceptAcceptAcceptAccept12c=", "chat", ""⟩,
    expectedAccept := "AcceptAcceptAcceptAccept12c=",
    allocOk := fun _ => true, defaultIoBuf := 4096, prePad := 16, postPad := 16 }

/-- C2, counterexample: all six conditions of the claim hold (status
begins with 101, Upgrade/Connection match case-insensitively, the
server-named sub-protocol is an offered token, no extensions, accept
matches), yet the interpreter rejects, because the sub-protocol names no
registered protocol — a condition the claim omits. -/
theorem c2_counterexample :
    (strncmpOk ("101") (lowerStr c2cexInput.hdrs.http) = true ∧
     lowerStr c2cexInput.hdrs.upgrade = "websocket" ∧
     lowerStr c2cexInput.hdrs.connection = "upgrade" ∧
     c2cexInput.hdrs.protocol ∈ commaTokens (c2cexInput.c_protocol.getD ("")) ∧
     c2cexInput.hdrs.extensions = "" ∧
     c2cexInput.hdrs.accept = c2cexInput.expectedAccept) ∧
    (interpret c2cexInput).result ≠ IResult.ok := by
  decide

/-- C2 (amended): when allocations succeed, the interpreter accepts iff
the status token begins with `101` (after lower-casing), `Upgrade` equals
`websocket` case-insensitively, `Connection` equals `upgrade`
case-insensitively, any server-named sub-protocol passes the offered-list
match loop AND names a locally registered protocol, every server-named
extension token is locally registered, and the accept value byte-equals
the precomputed `expected_accept_b64` — the checks in that order; on any
violation the session is closed with `PROTOCOL_ERR` (the close is the
last action) and `CLIENT_CONNECTION_ERROR` is delivered if a callback
binding exists. -/
theorem c2_response_validation (i : InterpIn) (hAl : ∀ k, i.allocOk k = true) :
    ((interpret i).result = IResult.ok ↔ acceptConditions i) ∧
    ((interpret i).result ≠ IResult.ok →
      ((interpret i).trace.getLast? = some (Act.close CloseStatus.protocolErr) ∧
       (i.hasCallback = true → Act.connError ∈ (interpret i).trace))) :=
  c2_characterization i hAl

/-- A fully valid handshake input for C2's witness. -/
def c2okInput : InterpIn :=
  { protocols := [⟨"chat", 0, 0⟩], extRegistry := [],
    c_protocol := some ("chat"), hasCallback := true,
    hdrs := ⟨"101 switching protocols", "websocket", "upgrade",
             "AcceptAcceptAcceptAccept12c=", "chat", ""⟩,
    expectedAccept := "AcceptAcceptAcceptAccept12c=",
    allocOk := fun _ => true, defaultIoBuf := 4096, prePad := 16, postPad := 16 }

/-- Witness for C2's theorem. -/
theorem c2_response_validation_witness :
    ((interpret c2okInput).result = IResult.ok ↔ acceptConditions c2okInput) ∧
    ((interpret c2okInput).result ≠ IResult.ok →
      ((interpret c2okInput).trace.getLast? = some (Act.close CloseStatus.protocolErr) ∧
       (c2okInput.hasCallback = true → Act.connError ∈ (interpret c2okInput).trace))) :=
  c2_response_validation c2okInput (fun _ => rfl)

/-- C3: in `WAITING_SERVER_REPLY` the core consumes one byte per read and
stops at completion: for any inbound byte stream that contains a point at
which the parser reports complete, the number of consumed bytes is
exactly the offset of the end of the terminating CRLFCRLF (the least
complete prefix), and all trailing bytes remain in the transport. The
parser itself is modelled from the spec (its code is not under `src/`). -/
theorem c3_non_over_read (s : List Char)
    (h : ∃ m, m ≤ s.length ∧ parsingComplete (s.take m) = true) :
    parsingComplete (s.take (readLoop [] s).1) = true ∧
    (∀ m, m < (readLoop [] s).1 → parsingComplete (s.take m) = false) ∧
    (readLoop [] s).2 = s.drop (readLoop [] s).1 ∧
    (readLoop [] s).1 ≤ s.length := by
  have h2 : ∃ m, m ≤ s.length ∧ parsingComplete ([] ++ s.take m) = true := by
    simpa using h
  simpa using readLoop_spec s [] h2

/-- The spec's scenario 4: response coalesced with a first 5-byte text
frame in the same packet. -/
def c3Response : String :=
  "HTTP/1.1 101 Switching Protocols\r\nUpgrade: websocket\r\n\r\n\x81\x05Hello"

/-- Witness for C3 on the coalesced response. -/
theorem c3_non_over_read_witness :
    parsingComplete (c3Response.data.take (readLoop [] c3Response.data).1) = true ∧
    (readLoop [] c3Response.data).2 =
      c3Response.data.drop (readLoop [] c3Response.data).1 := by
  have h := c3_non_over_read c3Response.data ⟨56, by decide, by decide⟩
  exact ⟨h.1, h.2.2.1⟩

/-- Input for C4's counterexample: "superchat" is a comma-separated token
of the offered list "chat,superchat" and is registered, yet the match
loop fails (its skip logic can only ever match the first token). -/
def c4cexInput : InterpIn :=
  { protocols := [⟨"chat", 0, 0⟩, ⟨"superchat", 0, 0⟩], extRegistry := [],
    c_protocol := some ("chat,superchat"), hasCallback := true,
    hdrs := ⟨"101 switching protocols", "websocket", "upgrade",
             "AcceptAcceptAcceptAccept12c=", "superchat", ""⟩,
    expectedAccept := "AcceptAcceptAcceptAccept12c=",
    allocOk := fun _ => true, defaultIoBuf := 4096, prePad := 16, postPad := 16 }

/-- C4, counterexample: the server pick "superchat" is a token of the
offered list and names a registry entry, but the interpreter closes with
`PROTOCOL_ERR` instead of selecting it. -/
theorem c4_counterexample :
    (c4cexInput.hdrs.protocol ∈ commaTokens (c4cexInput.c_protocol.getD ("")) ∧
     (c4cexInput.protocols.find?
        (fun p => p.name = c4cexInput.hdrs.protocol)).isSome = true) ∧
    (interpret c4cexInput).result = IResult.fail Reason.unknownProtocol ∧
    (interpret c4cexInput).selected = none := by
  decide

/-- C4 (amended): for an offered list `L` and server value `p` (with the
first three header checks passing): if `p` is the FIRST comma-separated
token of `L`, the interpreter selects the registry entry whose name
equals `p` (finding none is fatal); whenever the match loop fails — in
particular for any `p` that is a non-first token of `L` — validation
fails with `UnknownProtocol` and the session closes with `PROTOCOL_ERR`;
and if the server omitted the header, the first registered protocol is
chosen. -/
theorem c4_protocol_selection (i : InterpIn)
    (hS : strncmpOk ("101") (lowerStr i.hdrs.http) = true)
    (hU : lowerStr i.hdrs.upgrade = "websocket")
    (hC : lowerStr i.hdrs.connection = "upgrade") :
    (∀ rest : List Char, i.hdrs.protocol.data ≠ [] →
       (i.c_protocol.getD ("")).data = i.hdrs.protocol.data ++ rest →
       (rest = [] ∨ ∃ t, rest = ',' :: t) →
       (interpret i).selected =
         i.protocols.find? (fun p => p.name = i.hdrs.protocol)) ∧
    (i.hdrs.protocol ≠ "" →
       protoOffered (i.c_protocol.getD ("")) i.hdrs.protocol = false →
       (interpret i).result = IResult.fail Reason.unknownProtocol ∧
       (interpret i).selected = none ∧
       (interpret i).trace.getLast? = some (Act.close CloseStatus.protocolErr)) ∧
    (i.hdrs.protocol = "" →
       (interpret i).selected = some (i.protocols.headD ⟨"", 0, 0⟩)) := by
  refine ⟨?_, ?_, ?_⟩
  · intro rest hne hsplit hrest
    have hoff := firstToken_offered (i.c_protocol.getD ("")) i.hdrs.protocol
      hne rest hsplit hrest
    have hP : ¬ i.hdrs.protocol = "" := by
      intro h
      rw [h] at hne
      exact hne rfl
    have hps : protoSelection i =
        i.protocols.find? (fun p => p.name = i.hdrs.protocol) := by
      simp [protoSelection, hP, hoff]
    rcases hfind : i.protocols.find? (fun p => p.name = i.hdrs.protocol) with _ | p
    · rw [hfind] at hps
      simp [interpret, hS, hU, hC, hps, hfind]
    · rw [hfind] at hps
      simp [interpret, hS, hU, hC, hps, hfind, checkExtensions_selected]
  · intro hP hoff
    have hps : protoSelection i = none := by
      simp [protoSelection, hP, hoff]
    refine ⟨?_, ?_, ?_⟩ <;>
      simp [interpret, hS, hU, hC, hps, getLast_append_bail2, bail2Trace_getLast]
  · intro hP
    have hps : protoSelection i = some (i.protocols.headD ⟨"", 0, 0⟩) := by
      simp [protoSelection, hP]
    simp [interpret, hS, hU, hC, hps, checkExtensions_selected]

/-- Input for C4's witness: server picks the first offered token. -/
def c4wIn : InterpIn :=
  { protocols := [⟨"chat", 0, 0⟩, ⟨"superchat", 0, 0⟩], extRegistry := [],
    c_protocol := some ("chat,superchat"), hasCallback := true,
    hdrs := ⟨"101 switching protocols", "websocket", "upgrade",
             "AcceptAcceptAcceptAccept12c=", "chat", ""⟩,
    expectedAccept := "AcceptAcceptAcceptAccept12c=",
    allocOk := fun _ => true, defaultIoBuf := 4096, prePad := 16, postPad := 16 }

/-- Witness for C4's theorem. -/
theorem c4_protocol_selection_witness :
    (interpret c4wIn).selected =
      c4wIn.protocols.find? (fun p => p.name = c4wIn.hdrs.protocol) :=
  (c4_protocol_selection c4wIn (by decide) (by decide) (by decide)).1
    (',' :: ("superchat").data) (by decide) (by decide)
    (Or.inr ⟨("superchat").data, rfl⟩)

/-- Input for C5: a protocol with `rx_buffer_size = 1`. -/
def c5cexInput : InterpIn :=
  { protocols := [⟨"chat", 1, 0⟩], extRegistry := [],
    c_protocol := some ("chat"), hasCallback := true,
    hdrs := ⟨"101 switching protocols", "websocket", "upgrade",
             "AcceptAcceptAcceptAccept12c=", "chat", ""⟩,
    expectedAccept := "AcceptAcceptAcceptAccept12c=",
    allocOk := fun _ => true, defaultIoBuf := 4096, prePad := 16, postPad := 16 }

/-- C5, counterexample: with `rx_buffer_size = 1` the success path
allocates `1 + PRE + POST` bytes, not `max(1, DEFAULT) + PRE + POST` as
the claim states. -/
theorem c5_counterexample :
    Act.mallocRx (rxAllocSize 1 4096 16 16) ∈ (interpret c5cexInput).trace ∧
    rxAllocSize 1 4096 16 16 ≠ Nat.max 1 4096 + 16 + 16 ∧
    Act.mallocRx (Nat.max 1 4096 + 16 + 16) ∉ (interpret c5cexInput).trace := by
  decide

/-- C5 (amended): on the success path the receive buffer size is exactly
`rx_buffer_size + PRE + POST` when `rx_buffer_size` is nonzero, and
`DEFAULT + PRE + POST` when it is zero (the default substitutes only for
zero; no `max` is taken). -/
theorem c5_rx_buffer_size (i : InterpIn) (sel : Proto)
    (hS : strncmpOk ("101") (lowerStr i.hdrs.http) = true)
    (hU : lowerStr i.hdrs.upgrade = "websocket")
    (hC : lowerStr i.hdrs.connection = "upgrade")
    (hsel : protoSelection i = some sel)
    (hE : i.hdrs.extensions ≠ "" →
      ∀ nm ∈ extTokenize i.hdrs.extensions, nm ∈ i.extRegistry)
    (hA : i.hdrs.accept = i.expectedAccept)
    (hAl : ∀ k, i.allocOk k = true) :
    Act.mallocRx ((if sel.rx_buffer_size = 0 then i.defaultIoBuf
                   else sel.rx_buffer_size) + i.prePad + i.postPad)
      ∈ (interpret i).trace := by
  rw [interpret_success i sel hS hU hC hsel hE hA hAl]
  simp [successTrace, rxAllocSize, List.mem_append]

/-- Witness for C5's theorem on `c5cexInput` (whose selected protocol has
`rx_buffer_size = 1`). -/
theorem c5_rx_buffer_size_witness :
    Act.mallocRx ((if (1 : Nat) = 0 then 4096 else 1) + 16 + 16)
      ∈ (interpret c5cexInput).trace :=
  c5_rx_buffer_size c5cexInput ⟨"chat", 1, 0⟩ (by decide) (by decide) (by decide)
    (by decide) (fun h => absurd rfl h) (by decide) (fun _ => rfl)

/-- Extension for C6's counterexample: it vetoes its own name in
`CHECK_OK_TO_PROPOSE_EXTENSION`. -/
def c6ext : GExt := ⟨"x-veto-self", fun _ => 1⟩

/-- C6, counterexample: under the claim's reading ("every OTHER registered
extension is polled") a single registered extension that vetoes its own
name would still be proposed; the code polls every registered extension
including the candidate itself, so it proposes nothing. -/
theorem c6_counterexample :
    proposeExtensionsSpecOthers [c6ext] (fun _ => 0) = ["x-veto-self"] ∧
    proposeExtensions [c6ext] (fun _ => 0) = [] := by
  constructor
  · rfl
  · rfl

/-- C6 (amended): when building the extensions request header, EVERY
registered extension — including the candidate itself — is polled with
`CHECK_OK_TO_PROPOSE_EXTENSION` on the candidate's name and any nonzero
answer excludes the candidate; survivors are excluded if the user
confirm callback returns nonzero; exactly the surviving names are
emitted in registry order (the emitted header joins them with commas). -/
theorem c6_extension_proposal (exts : List GExt) (confirm : String → Nat) :
    proposeExtensions exts confirm =
      (exts.filter (fun e => (exts.all fun e1 => e1.checkOk e.name == 0) &&
                             (confirm e.name == 0))).map GExt.name :=
  proposeLoop_filter exts confirm exts

/-- C7: the generated client request is exactly the spec's line sequence
in the specified order: request line, Pragma, Cache-Control, Host,
Upgrade, Connection, Sec-WebSocket-Key, the origin line (`Origin:` iff
revision = 13, else `Sec-WebSocket-Origin:`) only when an origin is set,
the optional protocol list, the extensions line, a version line iff the
revision is nonzero, the user-appended bytes, and the final CRLF. -/
theorem c7_request_format (conn : GConn) (extNames : List String)
    (userAppend key_b64 : String) :
    buildClientRequest conn extNames userAppend key_b64 =
      joinStr (specRequestLines conn extNames userAppend key_b64) :=
  buildRequest_eq_spec conn extNames userAppend key_b64

/-- User-visible callback events among the interpreter actions. -/
def isUserCb : Act → Bool
  | Act.clientConstruct _ => true
  | Act.filterPreEstablish => true
  | Act.clientEstablished => true
  | Act.anyWsiEstablished _ => true
  | _ => false

/-- The `CLIENT_CONSTRUCT` events the interpreter delivers, one per
registry entry matching each server-listed name, in server list order. -/
def acceptedConstructs (reg : List String) (hdrExt : String) : List Act :=
  if hdrExt = "" then []
  else (extTokenize hdrExt).flatMap
    (fun nm => (reg.filter (fun e => e = nm)).map
      (fun _ => Act.clientConstruct nm))

theorem flatMap_const_singleton {α β : Type} (x : β) :
    ∀ l : List α, l.flatMap (fun _ => [x]) = List.replicate l.length x := by
  intro l
  induction l with
  | nil => rfl
  | cons _ t ih => simp [ih, List.replicate_succ]

theorem filter_anyWsi (reg : List String) :
    List.filter (isUserCb ∘ Act.anyWsiEstablished) reg = reg :=
  List.filter_eq_self.mpr (fun _ _ => rfl)

/-- C8: on a successful handshake the user-visible callbacks are exactly:
first every accepted extension's `CLIENT_CONSTRUCT` in the order the
server listed the extensions, then `FILTER_PRE_ESTABLISH`, then
`CLIENT_ESTABLISHED`, then the `ANY_WSI_ESTABLISHED` notifications (one
per registered extension); in particular every construct precedes every
`ANY_WSI_ESTABLISHED` and `CLIENT_ESTABLISHED` is never delivered before
`FILTER_PRE_ESTABLISH`. -/
theorem c8_callback_order (i : InterpIn) (sel : Proto)
    (hS : strncmpOk ("101") (lowerStr i.hdrs.http) = true)
    (hU : lowerStr i.hdrs.upgrade = "websocket")
    (hC : lowerStr i.hdrs.connection = "upgrade")
    (hsel : protoSelection i = some sel)
    (hE : i.hdrs.extensions ≠ "" →
      ∀ nm ∈ extTokenize i.hdrs.extensions, nm ∈ i.extRegistry)
    (hA : i.hdrs.accept = i.expectedAccept)
    (hAl : ∀ k, i.allocOk k = true) :
    (interpret i).trace.filter isUserCb =
      acceptedConstructs i.extRegistry i.hdrs.extensions ++
      [Act.filterPreEstablish, Act.clientEstablished] ++
      i.extRegistry.map Act.anyWsiEstablished := by
  rw [interpret_success i sel hS hU hC hsel hE hA hAl]
  by_cases h1 : i.c_protocol.isSome = true <;>
    by_cases h2 : sel.per_session_data_size ≠ 0 <;>
    by_cases h3 : i.hdrs.extensions = "" <;>
    simp [successTrace, acceptedConstructs, extPhaseEvents, isUserCb,
          constructEvents, h1, h2, h3, List.filter_append, List.filter_flatMap,
          List.filter_map, Function.comp, List.append_assoc,
          flatMap_const_singleton, filter_anyWsi]

/-- Input for C8's witness: two registered extensions, the server accepts
both in reverse registry order. -/
def c8wIn : InterpIn :=
  { protocols := [⟨"chat", 0, 4⟩], extRegistry := ["deflate", "mux"],
    c_protocol := some ("chat"), hasCallback := true,
    hdrs := ⟨"101 switching protocols", "websocket", "upgrade",
             "AcceptAcceptAcceptAccept12c=", "chat", "mux, deflate"⟩,
    expectedAccept := "AcceptAcceptAcceptAccept12c=",
    allocOk := fun _ => true, defaultIoBuf := 4096, prePad := 16, postPad := 16 }

/-- Witness for C8's theorem. -/
theorem c8_callback_order_witness :
    (interpret c8wIn).trace.filter isUserCb =
      acceptedConstructs c8wIn.extRegistry c8wIn.hdrs.extensions ++
      [Act.filterPreEstablish, Act.clientEstablished] ++
      c8wIn.extRegistry.map Act.anyWsiEstablished :=
  c8_callback_order c8wIn ⟨"chat", 0, 4⟩ (by decide) (by decide) (by decide)
    (by decide) (fun _ => by decide) (by decide) (fun _ => rfl)

/-- Input for C9: a fully valid handshake whose receive-buffer `malloc`
fails (the allocation oracle denies the first allocation of the run;
with no extensions and no per-session state that allocation is the rx
buffer). -/
def c9Input : InterpIn :=
  { protocols := [⟨"chat", 0, 0⟩], extRegistry := [],
    c_protocol := some ("chat"), hasCallback := true,
    hdrs := ⟨"101 switching protocols", "websocket", "upgrade",
             "AcceptAcceptAcceptAccept12c=", "chat", ""⟩,
    expectedAccept := "AcceptAcceptAcceptAccept12c=",
    allocOk := fun _ => false, defaultIoBuf := 4096, prePad := 16, postPad := 16 }

/-- C9: the claim (each owned allocation freed exactly once on every
failure path) states the spec's intent, but the code violates it: on the
failure path where the rx-buffer `malloc` fails after a fully valid
handshake, `bail3` frees `wsi->c_protocol` a second time — it was
already freed during protocol selection (line 455, or line 433 on the
no-header path) and never set to NULL, so the `if (wsi->c_protocol)`
guard at line 671 passes again. The trace records `freeCProto` twice. -/
theorem c9_double_free :
    acceptConditions c9Input ∧
    (interpret c9Input).result = IResult.fail Reason.allocFail ∧
    (interpret c9Input).trace.count Act.freeCProto = 2 := by
  refine ⟨?_, by decide, by decide⟩
  unfold acceptConditions protoClause extClause
  decide

/-- C10: in `WAITING_SERVER_REPLY`, a readiness event with neither
`POLLIN` nor `POLLERR` nor `POLLHUP` (for example a spurious
writable-only wakeup) does not leave the connection waiting: it takes
the same `bail3` as a dead-server event — freeing `c_protocol` when the
pointer is non-NULL and closing with `NOSTATUS`. -/
theorem c10_spurious_wakeup (ev : PollEv) (cPtr : Bool)
    (hin : ev.pollin = false) (herr : ev.pollerr = false)
    (hhup : ev.pollhup = false) :
    wsrDispatch ev cPtr = WsrAction.bail cPtr CloseStatus.nostatus ∧
    wsrDispatch ev cPtr ≠ WsrAction.proceedRead ∧
    wsrDispatch ev cPtr = wsrDispatch ⟨false, false, true, false⟩ cPtr := by
  refine ⟨?_, ?_, ?_⟩ <;> simp [wsrDispatch, hin, herr, hhup]

/-- Witness for C10 on a writable-only wakeup with an offered-protocols
string present. -/
theorem c10_spurious_wakeup_witness :
    wsrDispatch ⟨false, true, false, false⟩ true =
      WsrAction.bail true CloseStatus.nostatus ∧
    wsrDispatch ⟨false, true, false, false⟩ true ≠ WsrAction.proceedRead ∧
    wsrDispatch ⟨false, true, false, false⟩ true =
      wsrDispatch ⟨false, false, true, false⟩ true :=
  c10_spurious_wakeup ⟨false, true, false, false⟩ true rfl rfl rfl
